import Mathlib

/-!
# Shallow embedding of `src/main.py` (CF-AICord)

The program is a Discord chatbot that binds a chat thread to a Cloudflare
Workers AI model and keeps the per-thread conversation history in a MongoDB
collection `conversations`.  Documents have the shape
`{thread_id, messages: [{role, content}, ...], model}`.

The embedding below models:
* the `conversations` collection as a list of documents in natural
  (insertion) order, with `find_one` returning the first match and
  `update_one` + `$push` appending one message to the first match;
* `SelectModelSelect.callback`'s database effect (`createSession`);
* `Bot.fetch_response`, including the mention strip
  (`message.replace(self.user.mention, "")`, which replaces every
  non-overlapping occurrence), the early return when the document or the
  HTTP session is missing, the two `$push` updates, and the inference call
  in between.  A raised exception at the HTTP call or at
  `data["result"]["response"]` is modelled as `Except.error`;
* the `on_message` event handler and the `regenerate_response` context-menu
  command handler.

Each `fetch_response` invocation additionally records a trace of its
observable steps (`Event`) in execution order, used to state the ordering
guarantees.
-/

/-- A `{role, content}` chat message document, as stored in the `messages`
array of a conversation document and sent to the inference endpoint. -/
structure Msg where
  role : String
  content : String
deriving DecidableEq, Repr

/-- A document of the `conversations` collection:
`{"thread_id": ..., "messages": [...], "model": ...}` (src/main.py 64-75). -/
structure ConversationSession where
  thread_id : Nat
  messages : List Msg
  model : String
deriving DecidableEq, Repr

/-- The `conversations` MongoDB collection, in natural (insertion) order. -/
abbrev Store := List ConversationSession

/-- `conversations.find_one({"thread_id": tid})`: first document whose
`thread_id` equals `tid`, in natural order. -/
def find_one (store : Store) (tid : Nat) : Option ConversationSession :=
  store.find? (fun s => s.thread_id == tid)

/-- `conversations.insert_one(doc)`: unconditionally appends a new document
to the collection. -/
def insert_one (store : Store) (doc : ConversationSession) : Store :=
  store ++ [doc]

/-- `conversations.update_one({"thread_id": tid}, {"$push": {"messages": m}})`:
appends `m` to the `messages` array of the first matching document; a
no-op when no document matches. -/
def update_one_push (store : Store) (tid : Nat) (m : Msg) : Store :=
  match store with
  | [] => []
  | s :: rest =>
    if s.thread_id == tid then { s with messages := s.messages ++ [m] } :: rest
    else s :: update_one_push rest tid m

/-- The fixed persona string of the system message inserted at session
creation (src/main.py line 70). -/
def personaContent : String :=
  "You are a Discord Bot. Be rude, don't speak so formally. Speak with slang."

/-- The single system-role entry every session starts with. -/
def systemMsg : Msg :=
  { role := "system", content := personaContent }

/-- The database effect of `SelectModelSelect.callback` (src/main.py 64-75):
an unconditional `insert_one` of a fresh document whose `messages` array
holds exactly the system persona entry. -/
def createSession (store : Store) (tid : Nat) (model : String) : Store :=
  insert_one store { thread_id := tid, messages := [systemMsg], model := model }

/-- Python `str.replace(p, r)` on character lists for a non-empty pattern
`p`: scans left to right, replacing every non-overlapping occurrence of `p`
by `r`.  The `Nat` argument counts characters still to be dropped because
they belong to an occurrence already consumed (it is `0` at the start of a
scan).  For `p = []` this returns the text unchanged; `fetch_response` only
ever uses it with the bot's mention token, which is never empty. -/
def replaceAllAux (p r : List Char) : List Char → Nat → List Char
  | [], _ => []
  | _ :: rest, Nat.succ k => replaceAllAux p r rest k
  | c :: rest, 0 =>
    if p ≠ [] ∧ p.isPrefixOf (c :: rest) then
      r ++ replaceAllAux p r rest (p.length - 1)
    else
      c :: replaceAllAux p r rest 0

/-- `message.replace(self.user.mention, "")` (src/main.py line 116): removes
every non-overlapping occurrence of the bot's mention token from the text. -/
def stripMention (mention text : String) : String :=
  ⟨replaceAllAux mention.data [] text.data 0⟩

/-- Executable occurrence check: `occursInB p s = true` iff `p` occurs as a
contiguous substring of `s`. -/
def occursInB (p : List Char) : List Char → Bool
  | [] => p.isPrefixOf ([] : List Char)
  | c :: rest => p.isPrefixOf (c :: rest) || occursInB p rest

/-- Failure modes of the inference call: transport failure, a response
without a usable `result.response` payload, or rate limiting. -/
inductive InferenceError where
  | Unreachable
  | MalformedResponse
  | RateLimited
deriving DecidableEq, Repr

/-- The inference side of `fetch_response`: the `session.post` to the
Cloudflare endpoint followed by `data["result"]["response"]`.  `Except.error`
stands for a raised exception (transport failure or missing payload). -/
abbrev Infer := String → List Msg → Except InferenceError String

/-- Observable steps of one `fetch_response` invocation, in execution
order: the user-message `$push`, the inference call (with the exact history
sent), and the assistant-message `$push`. -/
inductive Event where
  | appendUser (tid : Nat) (m : Msg)
  | inferCall (model : String) (history : List Msg)
  | appendAssistant (tid : Nat) (m : Msg)
deriving DecidableEq, Repr

/-- Position of a step in the append/invoke/append pipeline. -/
def eventPhase : Event → Nat
  | Event.appendUser _ _ => 0
  | Event.inferCall _ _ => 1
  | Event.appendAssistant _ _ => 2

/-- Result of one `Bot.fetch_response` invocation: the collection after the
call, the returned value (`none` both for the early `return` and for a
raised exception), and the trace of observable steps. -/
structure FetchResult where
  store : Store
  result : Option String
  events : List Event
deriving DecidableEq, Repr

/-- `Bot.fetch_response(model, message, thread_id)` (src/main.py 105-138).
`mention` is `self.user.mention`; `httpReady` is whether `self.session` is
set; `infer` is the inference endpoint.  Steps, in source order: strip the
mention token from `message`; `find_one` the document; return early when it
is missing or the HTTP session is unset; `$push` the user message; POST the
full history (the document's `messages` with the new user message appended);
on success `$push` the assistant message and return it; a failed call
leaves the store with the user message only and produces no value. -/
def fetch_response (mention : String) (infer : Infer) (httpReady : Bool)
    (store : Store) (model : String) (message : String) (thread_id : Nat) :
    FetchResult :=
  let cleaned := stripMention mention message
  match find_one store thread_id with
  | none => ⟨store, none, []⟩
  | some data =>
    if httpReady then
      let userMsg : Msg := { role := "user", content := cleaned }
      let history := data.messages ++ [userMsg]
      let store1 := update_one_push store thread_id userMsg
      match infer model history with
      | Except.error _ =>
        ⟨store1, none,
          [Event.appendUser thread_id userMsg, Event.inferCall model history]⟩
      | Except.ok ai =>
        let aiMsg : Msg := { role := "assistant", content := ai }
        ⟨update_one_push store1 thread_id aiMsg, some ai,
          [Event.appendUser thread_id userMsg, Event.inferCall model history,
            Event.appendAssistant thread_id aiMsg]⟩
    else
      ⟨store, none, []⟩

/-- An inbound Discord message event as `on_message` sees it:
`message.author.bot`, `bot.user.mentioned_in(message)`, `message.content`,
`message.channel.id`. -/
structure InboundMessage where
  author_bot : Bool
  mentions_bot : Bool
  content : String
  channel_id : Nat
deriving DecidableEq, Repr

/-- What `on_message` did: delegated to ordinary command processing,
returned without replying (`ai_message is None`, or an exception), or
replied in the thread with the assistant text. -/
inductive MessageOutcome where
  | delegated
  | silent
  | replied (text : String)
deriving DecidableEq, Repr

/-- Result of one `on_message` invocation. -/
structure MessageResult where
  store : Store
  outcome : MessageOutcome
  events : List Event
deriving DecidableEq, Repr

/-- The `on_message` event handler (src/main.py 178-195): delegate when the
author is a bot, the bot is not mentioned, or the content is empty; delegate
when no session document exists for the channel; otherwise run
`fetch_response` with the session's model and reply with its result. -/
def on_message (mention : String) (infer : Infer) (httpReady : Bool)
    (store : Store) (msg : InboundMessage) : MessageResult :=
  if msg.author_bot || !msg.mentions_bot || msg.content == "" then
    ⟨store, MessageOutcome.delegated, []⟩
  else
    match find_one store msg.channel_id with
    | none => ⟨store, MessageOutcome.delegated, []⟩
    | some data =>
      let fr := fetch_response mention infer httpReady store data.model
        msg.content msg.channel_id
      match fr.result with
      | none => ⟨fr.store, MessageOutcome.silent, fr.events⟩
      | some ai => ⟨fr.store, MessageOutcome.replied ai, fr.events⟩

/-- The target of the "Regenerate response" context menu:
`message.author.bot` and `message.content`. -/
structure TargetMessage where
  author_bot : Bool
  content : String
deriving DecidableEq, Repr

/-- What `regenerate_response` did: told the user the thread has no session,
rejected the target, returned without editing, or edited the displayed
message to the new assistant text. -/
inductive RegenOutcome where
  | noSession
  | invalidTarget
  | silent
  | edited (text : String)
deriving DecidableEq, Repr

/-- Result of one `regenerate_response` invocation. -/
structure RegenResult where
  store : Store
  outcome : RegenOutcome
  events : List Event
deriving DecidableEq, Repr

/-- The "Regenerate response" context-menu handler (src/main.py 156-175):
report no-session when `find_one` misses; reject a target authored by a bot
or with empty content; otherwise rerun `fetch_response` on the target's
content and edit the displayed message to the new assistant text. -/
def regenerate_response (mention : String) (infer : Infer) (httpReady : Bool)
    (store : Store) (channel_id : Nat) (target : TargetMessage) : RegenResult :=
  match find_one store channel_id with
  | none => ⟨store, RegenOutcome.noSession, []⟩
  | some data =>
    if target.author_bot || target.content == "" then
      ⟨store, RegenOutcome.invalidTarget, []⟩
    else
      let fr := fetch_response mention infer httpReady store data.model
        target.content channel_id
      match fr.result with
      | none => ⟨fr.store, RegenOutcome.silent, fr.events⟩
      | some ai => ⟨fr.store, RegenOutcome.edited ai, fr.events⟩

/-- One store-mutating entry point of the program: a model-selection bind,
an inbound message event, or a regeneration command. -/
inductive BotAction where
  | bind (tid : Nat) (model : String)
  | inbound (mention : String) (infer : Infer) (httpReady : Bool)
      (msg : InboundMessage)
  | regen (mention : String) (infer : Infer) (httpReady : Bool)
      (cid : Nat) (target : TargetMessage)

/-- The store after one entry point runs. -/
def applyAction (store : Store) : BotAction → Store
  | BotAction.bind tid model => createSession store tid model
  | BotAction.inbound mention infer hr msg =>
    (on_message mention infer hr store msg).store
  | BotAction.regen mention infer hr cid target =>
    (regenerate_response mention infer hr store cid target).store

/-- Every session in the store still has the persona system entry as its
first message. -/
def SysFirst (store : Store) : Prop :=
  ∀ s ∈ store, s.messages.head? = some systemMsg

/-! ## Store lemmas -/

/-- The immutable part of a session document: its key and its model. -/
def sessionKey (s : ConversationSession) : Nat × String :=
  (s.thread_id, s.model)

theorem update_one_push_sessionKey (tid : Nat) (m : Msg) :
    ∀ store : Store,
      (update_one_push store tid m).map sessionKey = store.map sessionKey := by
  intro store
  induction store with
  | nil => rfl
  | cons s rest ih =>
    cases hc : s.thread_id == tid with
    | true => simp [update_one_push, hc, sessionKey]
    | false => simp [update_one_push, hc, ih]

theorem head?_append_left {α : Type} {l : List α} {a : α} (l' : List α)
    (h : l.head? = some a) : (l ++ l').head? = some a := by
  cases l with
  | nil => simp at h
  | cons x xs => simpa using h

theorem sysFirst_update_one_push (tid : Nat) (m : Msg) :
    ∀ store : Store, SysFirst store → SysFirst (update_one_push store tid m) := by
  intro store
  induction store with
  | nil => exact fun h => h
  | cons s rest ih =>
    intro h
    have hs := h s (List.mem_cons_self s rest)
    have hrest : SysFirst rest := fun t ht => h t (List.mem_cons_of_mem s ht)
    cases hc : s.thread_id == tid with
    | true =>
      intro t ht
      simp only [update_one_push, hc, if_true] at ht
      rcases List.mem_cons.mp ht with rfl | ht'
      · exact head?_append_left [m] hs
      · exact hrest t ht'
    | false =>
      intro t ht
      simp only [update_one_push, hc, Bool.false_eq_true, if_false] at ht
      rcases List.mem_cons.mp ht with rfl | ht'
      · exact hs
      · exact ih hrest t ht'

theorem sysFirst_createSession (store : Store) (tid : Nat) (model : String)
    (h : SysFirst store) : SysFirst (createSession store tid model) := by
  intro t ht
  rcases List.mem_append.mp ht with ht' | ht'
  · exact h t ht'
  · rcases List.mem_singleton.mp ht' with rfl
    rfl

theorem find_one_append_of_isSome (l' : Store) (tid : Nat) :
    ∀ l : Store, (find_one l tid).isSome →
      find_one (l ++ l') tid = find_one l tid := by
  intro l
  induction l with
  | nil => intro h; simp [find_one] at h
  | cons s rest ih =>
    intro h
    cases hc : s.thread_id == tid with
    | true => simp [find_one, List.find?_cons_of_pos, hc]
    | false =>
      have h' : (find_one rest tid).isSome := by
        simpa [find_one, List.find?_cons_of_neg, hc] using h
      simpa [find_one, List.find?_cons_of_neg, hc] using ih h'

theorem find_one_createSession_isSome (tid : Nat) (model : String) :
    ∀ store : Store, (find_one (createSession store tid model) tid).isSome := by
  intro store
  induction store with
  | nil => simp [createSession, insert_one, find_one]
  | cons s rest ih =>
    cases hc : s.thread_id == tid with
    | true => simp [createSession, insert_one, find_one, List.find?_cons_of_pos, hc]
    | false =>
      simp only [createSession, insert_one, List.cons_append] at ih ⊢
      simp [find_one, List.find?_cons_of_neg, hc]

/-! ## Claim C5 -/

/-- Claim C5: invoking the regeneration handler on a thread with no session
returns the no-session outcome (surfaced as "not eligible for regeneration")
and performs no store mutation: the returned store is exactly the input
store, and no append event is emitted. -/
theorem regenerate_no_session (mention : String) (infer : Infer) (hr : Bool)
    (store : Store) (cid : Nat) (target : TargetMessage)
    (h : find_one store cid = none) :
    regenerate_response mention infer hr store cid target =
      ⟨store, RegenOutcome.noSession, []⟩ := by
  simp [regenerate_response, h]

theorem regenerate_no_session_witness :
    find_one ([] : Store) 7 = none ∧
    regenerate_response "<@9>" (fun _ _ => Except.ok "x") true [] 7
        ⟨false, "hi"⟩ = ⟨[], RegenOutcome.noSession, []⟩ :=
  ⟨rfl, regenerate_no_session "<@9>" (fun _ _ => Except.ok "x") true [] 7
    ⟨false, "hi"⟩ rfl⟩

/-! ## Claim C6 -/

/-- Claim C6: given a session exists for the thread, invoking the regeneration
handler on a target message authored by the bot, or with empty content,
returns the invalid-target outcome and performs no store mutation. -/
theorem regenerate_invalid_target (mention : String) (infer : Infer) (hr : Bool)
    (store : Store) (cid : Nat) (target : TargetMessage)
    (data : ConversationSession)
    (hfind : find_one store cid = some data)
    (htarget : target.author_bot = true ∨ target.content = "") :
    regenerate_response mention infer hr store cid target =
      ⟨store, RegenOutcome.invalidTarget, []⟩ := by
  rcases htarget with hb | hc
  · simp [regenerate_response, hfind, hb]
  · simp [regenerate_response, hfind, hc]

theorem regenerate_invalid_target_witness :
    find_one [ConversationSession.mk 1 [systemMsg] "M1"] 1 =
        some (ConversationSession.mk 1 [systemMsg] "M1") ∧
    ((TargetMessage.mk true "hi").author_bot = true ∨
      (TargetMessage.mk true "hi").content = "") ∧
    regenerate_response "<@9>" (fun _ _ => Except.ok "x") true
        [ConversationSession.mk 1 [systemMsg] "M1"] 1 (TargetMessage.mk true "hi") =
      ⟨[ConversationSession.mk 1 [systemMsg] "M1"], RegenOutcome.invalidTarget, []⟩ :=
  ⟨rfl, Or.inl rfl,
    regenerate_invalid_target "<@9>" (fun _ _ => Except.ok "x") true
      [ConversationSession.mk 1 [systemMsg] "M1"] 1 (TargetMessage.mk true "hi")
      (ConversationSession.mk 1 [systemMsg] "M1") rfl (Or.inl rfl)⟩

/-! ## Claim C3 -/

/-- Claim C3 counterexample: `create` is an unconditional `insert_one` with no
`AlreadyExists` check, so running the creation callback twice for the same
`thread_id` leaves TWO documents for that `thread_id` in the collection —
refuting both "yields AlreadyExists on the second call" and "exactly one
`ConversationSession` exists per `thread_id` at any time". -/
theorem create_twice_counterexample :
    ((createSession (createSession [] 5 "M1") 5 "M1").filter
        (fun s => s.thread_id == 5)).length = 2 := by
  decide

/-- Claim C3 (amended): calling create twice for the same `thread_id` does not
fail; the second call appends a second fresh document for that `thread_id`.
The session persisted by the first call is left unmodified (the second call
only appends), and it is still the document every `find_one` lookup
resolves, so the duplicate is inert for the rest of the program. -/
theorem create_twice_appends_second_document (store : Store) (tid : Nat)
    (m1 m2 : String) :
    createSession (createSession store tid m1) tid m2 =
      createSession store tid m1 ++
        [{ thread_id := tid, messages := [systemMsg], model := m2 }] ∧
    find_one (createSession (createSession store tid m1) tid m2) tid =
      find_one (createSession store tid m1) tid :=
  ⟨rfl, find_one_append_of_isSome _ tid _ (find_one_createSession_isSome tid m1 store)⟩

/-! ## Case analysis of `fetch_response` -/

/-- Exhaustive description of one `fetch_response` invocation: either the
early return (missing document or unset HTTP session) leaves the store
untouched, or the user message is pushed and the inference call either
fails (user push only, no value) or succeeds (user push, then assistant
push, value returned). -/
theorem fetch_response_cases (mention : String) (infer : Infer) (hr : Bool)
    (store : Store) (model message : String) (tid : Nat) :
    fetch_response mention infer hr store model message tid =
        ⟨store, none, []⟩ ∨
      (∃ data,
        find_one store tid = some data ∧ hr = true ∧
        ((∃ e,
            infer model
                (data.messages ++ [⟨"user", stripMention mention message⟩]) =
              Except.error e ∧
            fetch_response mention infer hr store model message tid =
              ⟨update_one_push store tid ⟨"user", stripMention mention message⟩,
                none,
                [Event.appendUser tid ⟨"user", stripMention mention message⟩,
                  Event.inferCall model
                    (data.messages ++ [⟨"user", stripMention mention message⟩])]⟩) ∨
          (∃ ai,
            infer model
                (data.messages ++ [⟨"user", stripMention mention message⟩]) =
              Except.ok ai ∧
            fetch_response mention infer hr store model message tid =
              ⟨update_one_push
                  (update_one_push store tid
                    ⟨"user", stripMention mention message⟩)
                  tid ⟨"assistant", ai⟩,
                some ai,
                [Event.appendUser tid ⟨"user", stripMention mention message⟩,
                  Event.inferCall model
                    (data.messages ++ [⟨"user", stripMention mention message⟩]),
                  Event.appendAssistant tid ⟨"assistant", ai⟩]⟩))) := by
  cases hf : find_one store tid with
  | none => left; simp [fetch_response, hf]
  | some data =>
    cases hr with
    | false => left; simp [fetch_response, hf]
    | true =>
      cases hi : infer model
          (data.messages ++ [⟨"user", stripMention mention message⟩]) with
      | error e =>
        exact Or.inr ⟨data, rfl, rfl, Or.inl ⟨e, hi, by simp [fetch_response, hf, hi]⟩⟩
      | ok ai =>
        exact Or.inr ⟨data, rfl, rfl, Or.inr ⟨ai, hi, by simp [fetch_response, hf, hi]⟩⟩

theorem fetch_response_sessionKey (mention : String) (infer : Infer) (hr : Bool)
    (store : Store) (model message : String) (tid : Nat) :
    ((fetch_response mention infer hr store model message tid).store).map
        sessionKey = store.map sessionKey := by
  rcases fetch_response_cases mention infer hr store model message tid with
    heq | ⟨data, hf, hhr, ⟨e, hi, heq⟩ | ⟨ai, hi, heq⟩⟩ <;>
  simp [heq, update_one_push_sessionKey]

theorem fetch_response_sysFirst (mention : String) (infer : Infer) (hr : Bool)
    (store : Store) (model message : String) (tid : Nat) (h : SysFirst store) :
    SysFirst (fetch_response mention infer hr store model message tid).store := by
  rcases fetch_response_cases mention infer hr store model message tid with
    heq | ⟨data, hf, hhr, ⟨e, hi, heq⟩ | ⟨ai, hi, heq⟩⟩
  · simpa [heq] using h
  · simpa [heq] using sysFirst_update_one_push _ _ store h
  · simpa [heq] using
      sysFirst_update_one_push _ _ _ (sysFirst_update_one_push _ _ store h)

theorem fetch_response_phases (mention : String) (infer : Infer) (hr : Bool)
    (store : Store) (model message : String) (tid : Nat) :
    ((fetch_response mention infer hr store model message tid).events).map
          eventPhase = [] ∨
      ((fetch_response mention infer hr store model message tid).events).map
          eventPhase = [0, 1] ∨
      ((fetch_response mention infer hr store model message tid).events).map
          eventPhase = [0, 1, 2] := by
  rcases fetch_response_cases mention infer hr store model message tid with
    heq | ⟨data, hf, hhr, ⟨e, hi, heq⟩ | ⟨ai, hi, heq⟩⟩ <;>
  simp [heq, eventPhase]

/-! ## Case analysis of the two handlers -/

/-- `on_message` either delegates (bot author, not mentioned, empty content,
or no session document) leaving the store untouched, or runs
`fetch_response` with the session's model and forwards its store and trace. -/
theorem on_message_cases (mention : String) (infer : Infer) (hr : Bool)
    (store : Store) (msg : InboundMessage) :
    on_message mention infer hr store msg =
        ⟨store, MessageOutcome.delegated, []⟩ ∨
      (∃ data, find_one store msg.channel_id = some data ∧
        (on_message mention infer hr store msg).store =
          (fetch_response mention infer hr store data.model msg.content
            msg.channel_id).store ∧
        (on_message mention infer hr store msg).events =
          (fetch_response mention infer hr store data.model msg.content
            msg.channel_id).events) := by
  by_cases hg : (msg.author_bot || !msg.mentions_bot || msg.content == "") = true
  · left; simp [on_message, hg]
  · cases hf : find_one store msg.channel_id with
    | none => left; simp [on_message, hg, hf]
    | some data =>
      refine Or.inr ⟨data, rfl, ?_, ?_⟩ <;>
        cases hr2 : (fetch_response mention infer hr store data.model msg.content
          msg.channel_id).result <;>
      simp [on_message, hg, hf, hr2]

/-- `regenerate_response` either reports no session or an invalid target
(store untouched), or runs `fetch_response` on the target's content and
forwards its store and trace. -/
theorem regenerate_response_cases (mention : String) (infer : Infer) (hr : Bool)
    (store : Store) (cid : Nat) (target : TargetMessage) :
    regenerate_response mention infer hr store cid target =
        ⟨store, RegenOutcome.noSession, []⟩ ∨
      regenerate_response mention infer hr store cid target =
        ⟨store, RegenOutcome.invalidTarget, []⟩ ∨
      (∃ data, find_one store cid = some data ∧
        (regenerate_response mention infer hr store cid target).store =
          (fetch_response mention infer hr store data.model target.content
            cid).store ∧
        (regenerate_response mention infer hr store cid target).events =
          (fetch_response mention infer hr store data.model target.content
            cid).events) := by
  cases hf : find_one store cid with
  | none => left; simp [regenerate_response, hf]
  | some data =>
    by_cases hg : (target.author_bot || target.content == "") = true
    · right; left; simp [regenerate_response, hf, hg]
    · refine Or.inr (Or.inr ⟨data, rfl, ?_, ?_⟩) <;>
        cases hr2 : (fetch_response mention infer hr store data.model
          target.content cid).result <;>
      simp [regenerate_response, hf, hg, hr2]

/-! ## Claim C8 -/

/-- Claim C8: the append operations performed by the message handler and by
the regeneration handler change only the `messages` field of session
documents: the list of `(thread_id, model)` pairs of the collection — every
session's key and model, in order — is exactly the same after either
handler runs as before. -/
theorem handlers_preserve_thread_id_and_model (mention : String)
    (infer : Infer) (hr : Bool) (store : Store) (msg : InboundMessage)
    (cid : Nat) (target : TargetMessage) :
    ((on_message mention infer hr store msg).store).map sessionKey =
        store.map sessionKey ∧
      ((regenerate_response mention infer hr store cid target).store).map
          sessionKey = store.map sessionKey := by
  constructor
  · rcases on_message_cases mention infer hr store msg with
      heq | ⟨data, hf, hst, hev⟩
    · simp [heq]
    · rw [hst]; exact fetch_response_sessionKey mention infer hr store
        data.model msg.content msg.channel_id
  · rcases regenerate_response_cases mention infer hr store cid target with
      heq | heq | ⟨data, hf, hst, hev⟩
    · simp [heq]
    · simp [heq]
    · rw [hst]; exact fetch_response_sessionKey mention infer hr store
        data.model target.content cid

/-! ## Claim C9 -/

/-- Claim C9: within one handler invocation (the `on_message` self-loop or the
regeneration handler), the trace of observable steps is a prefix of
append-user, then inference call, then append-assistant: its phase word is
`[]`, `[0, 1]`, or `[0, 1, 2]`.  In every possible trace the user-message
append precedes any inference call, and any inference call precedes the
assistant-message append; no other interleaving is reachable. -/
theorem handler_event_order (mention : String) (infer : Infer) (hr : Bool)
    (store : Store) (msg : InboundMessage) (cid : Nat)
    (target : TargetMessage) :
    (((on_message mention infer hr store msg).events).map eventPhase = [] ∨
      ((on_message mention infer hr store msg).events).map eventPhase =
        [0, 1] ∨
      ((on_message mention infer hr store msg).events).map eventPhase =
        [0, 1, 2]) ∧
    (((regenerate_response mention infer hr store cid target).events).map
          eventPhase = [] ∨
      ((regenerate_response mention infer hr store cid target).events).map
          eventPhase = [0, 1] ∨
      ((regenerate_response mention infer hr store cid target).events).map
          eventPhase = [0, 1, 2]) := by
  constructor
  · rcases on_message_cases mention infer hr store msg with
      heq | ⟨data, hf, hst, hev⟩
    · simp [heq]
    · rw [hev]
      exact fetch_response_phases mention infer hr store data.model
        msg.content msg.channel_id
  · rcases regenerate_response_cases mention infer hr store cid target with
      heq | heq | ⟨data, hf, hst, hev⟩
    · simp [heq]
    · simp [heq]
    · rw [hev]
      exact fetch_response_phases mention infer hr store data.model
        target.content cid

/-! ## Claim C2 -/

theorem on_message_sysFirst (mention : String) (infer : Infer) (hr : Bool)
    (store : Store) (msg : InboundMessage) (h : SysFirst store) :
    SysFirst (on_message mention infer hr store msg).store := by
  rcases on_message_cases mention infer hr store msg with
    heq | ⟨data, hf, hst, hev⟩
  · simpa [heq] using h
  · rw [hst]
    exact fetch_response_sysFirst mention infer hr store data.model
      msg.content msg.channel_id h

theorem regenerate_sysFirst (mention : String) (infer : Infer) (hr : Bool)
    (store : Store) (cid : Nat) (target : TargetMessage) (h : SysFirst store) :
    SysFirst (regenerate_response mention infer hr store cid target).store := by
  rcases regenerate_response_cases mention infer hr store cid target with
    heq | heq | ⟨data, hf, hst, hev⟩
  · simpa [heq] using h
  · simpa [heq] using h
  · rw [hst]
    exact fetch_response_sysFirst mention infer hr store data.model
      target.content cid h

/-- Claim C2: starting from any store in which every session's first message
is the persona system entry, after any number of entry-point runs — session
creations, message-handler invocations, regeneration invocations — every
session's first message is still that system entry.  Creation itself
initializes a session to exactly `[systemMsg]`, so the invariant holds for
every store the program can ever build. -/
theorem sessions_start_with_system (acts : List BotAction) (store : Store)
    (h : SysFirst store) : SysFirst (List.foldl applyAction store acts) := by
  induction acts generalizing store with
  | nil => exact h
  | cons a rest ih =>
    refine ih _ ?_
    cases a with
    | bind tid model => exact sysFirst_createSession store tid model h
    | inbound mention infer hr msg =>
      exact on_message_sysFirst mention infer hr store msg h
    | regen mention infer hr cid target =>
      exact regenerate_sysFirst mention infer hr store cid target h

theorem sessions_start_with_system_witness :
    SysFirst ([] : Store) ∧
    SysFirst (List.foldl applyAction []
      [BotAction.bind 1 "M1",
        BotAction.inbound "<@9>" (fun _ _ => Except.ok "sup") true
          ⟨false, true, "hello", 1⟩,
        BotAction.regen "<@9>" (fun _ _ => Except.ok "yo") true 1
          ⟨false, "hello"⟩]) :=
  ⟨by unfold SysFirst; decide,
    sessions_start_with_system
      [BotAction.bind 1 "M1",
        BotAction.inbound "<@9>" (fun _ _ => Except.ok "sup") true
          ⟨false, true, "hello", 1⟩,
        BotAction.regen "<@9>" (fun _ _ => Except.ok "yo") true 1
          ⟨false, "hello"⟩] []
      (by unfold SysFirst; decide)⟩

/-! ## Claim C4 -/

/-- Claim C4: when a session exists for the channel and the user's message
passes the guards, but the inference call fails (raised transport error or
unusable payload), no assistant entry is appended to the stored history —
the store differs from the input store only by the pushed user message —
and the handler produces no value (it never reaches `message.reply`). -/
theorem failed_inference_no_assistant (mention : String) (err : InferenceError)
    (store : Store) (msg : InboundMessage) (data : ConversationSession)
    (hbot : msg.author_bot = false) (hment : msg.mentions_bot = true)
    (hcontent : msg.content ≠ "")
    (hfind : find_one store msg.channel_id = some data) :
    (on_message mention (fun _ _ => Except.error err) true store msg).store =
        update_one_push store msg.channel_id
          ⟨"user", stripMention mention msg.content⟩ ∧
      (on_message mention (fun _ _ => Except.error err) true store msg).outcome =
        MessageOutcome.silent := by
  have hg : (msg.author_bot || !msg.mentions_bot || msg.content == "") = false := by
    simp [hbot, hment, hcontent]
  constructor <;> simp [on_message, hg, hfind, fetch_response]

theorem failed_inference_no_assistant_witness :
    (InboundMessage.mk false true "hi" 1).content ≠ "" ∧
    find_one [ConversationSession.mk 1 [systemMsg] "M1"] 1 =
        some (ConversationSession.mk 1 [systemMsg] "M1") ∧
    (on_message "<@9>" (fun _ _ => Except.error InferenceError.Unreachable)
          true [ConversationSession.mk 1 [systemMsg] "M1"]
          (InboundMessage.mk false true "hi" 1)).store =
        update_one_push [ConversationSession.mk 1 [systemMsg] "M1"] 1
          ⟨"user", stripMention "<@9>" "hi"⟩ ∧
    (on_message "<@9>" (fun _ _ => Except.error InferenceError.Unreachable)
          true [ConversationSession.mk 1 [systemMsg] "M1"]
          (InboundMessage.mk false true "hi" 1)).outcome =
        MessageOutcome.silent :=
  ⟨by decide, rfl,
    (failed_inference_no_assistant "<@9>" InferenceError.Unreachable
      [ConversationSession.mk 1 [systemMsg] "M1"]
      (InboundMessage.mk false true "hi" 1)
      (ConversationSession.mk 1 [systemMsg] "M1") rfl rfl (by decide) rfl).1,
    (failed_inference_no_assistant "<@9>" InferenceError.Unreachable
      [ConversationSession.mk 1 [systemMsg] "M1"]
      (InboundMessage.mk false true "hi" 1)
      (ConversationSession.mk 1 [systemMsg] "M1") rfl rfl (by decide) rfl).2⟩

/-! ## Claim C1 -/

/-- Claim C1 (end-to-end scenario A): for a freshly created session bound to
model `M1` — history `[systemMsg]` — processing the inbound user message
`"hello"` with an inference service returning `"sup"` leaves the stored
history `[system, user "hello", assistant "sup"]` and has the handler reply
`"sup"` for display. -/
theorem scenario_a :
    (on_message "<@9>" (fun _ _ => Except.ok "sup") true
        (createSession [] 1 "M1") ⟨false, true, "hello", 1⟩).store =
      [⟨1, [systemMsg, ⟨"user", "hello"⟩, ⟨"assistant", "sup"⟩], "M1"⟩] ∧
    (on_message "<@9>" (fun _ _ => Except.ok "sup") true
        (createSession [] 1 "M1") ⟨false, true, "hello", 1⟩).outcome =
      MessageOutcome.replied "sup" := by
  decide

/-! ## Claim C7 -/

/-- Claim C7 (end-to-end scenario B): starting from scenario A's history
`[system, user "hello", assistant "sup"]`, regeneration targeting the user
message `"hello"` with an inference service returning `"yo"` leaves the
history `[system, user "hello", assistant "sup", user "hello",
assistant "yo"]` — the original user/assistant pair is neither removed nor
replaced, a new pair is appended — and the displayed message is edited to
`"yo"`. -/
theorem scenario_b :
    (regenerate_response "<@9>" (fun _ _ => Except.ok "yo") true
        [⟨1, [systemMsg, ⟨"user", "hello"⟩, ⟨"assistant", "sup"⟩], "M1"⟩] 1
        ⟨false, "hello"⟩).store =
      [⟨1, [systemMsg, ⟨"user", "hello"⟩, ⟨"assistant", "sup"⟩,
        ⟨"user", "hello"⟩, ⟨"assistant", "yo"⟩], "M1"⟩] ∧
    (regenerate_response "<@9>" (fun _ _ => Except.ok "yo") true
        [⟨1, [systemMsg, ⟨"user", "hello"⟩, ⟨"assistant", "sup"⟩], "M1"⟩] 1
        ⟨false, "hello"⟩).outcome = RegenOutcome.edited "yo" := by
  decide

/-! ## Claim C10: the mention strip is replace-all -/

theorem replaceAllAux_skip (p r : List Char) :
    ∀ (x s : List Char),
      replaceAllAux p r (x ++ s) x.length = replaceAllAux p r s 0 := by
  intro x
  induction x with
  | nil => intro s; rfl
  | cons c x' ih =>
    intro s
    simpa [replaceAllAux] using ih s

theorem replaceAllAux_head_match (p r : List Char) (hp : p ≠ []) :
    ∀ s : List Char,
      replaceAllAux p r (p ++ s) 0 = r ++ replaceAllAux p r s 0 := by
  intro s
  cases p with
  | nil => exact absurd rfl hp
  | cons c p' =>
    have hpre : (c :: p').isPrefixOf (c :: (p' ++ s)) = true := by
      simp
    have hcond : c :: p' ≠ [] ∧
        (c :: p').isPrefixOf (c :: (p' ++ s)) = true := ⟨by simp, hpre⟩
    calc replaceAllAux (c :: p') r ((c :: p') ++ s) 0
        = r ++ replaceAllAux (c :: p') r (p' ++ s) ((c :: p').length - 1) := by
          simp only [List.cons_append, replaceAllAux, hpre]
          simp
      _ = r ++ replaceAllAux (c :: p') r (p' ++ s) p'.length := by simp
      _ = r ++ replaceAllAux (c :: p') r s 0 := by
          rw [replaceAllAux_skip]

theorem replaceAllAux_no_occurrence (p r : List Char) :
    ∀ s : List Char, occursInB p s = false → replaceAllAux p r s 0 = s := by
  intro s
  induction s with
  | nil => intro _; rfl
  | cons c rest ih =>
    intro h
    simp only [occursInB, Bool.or_eq_false_iff] at h
    simp [replaceAllAux, h.1, ih h.2]

theorem replaceAllAux_middle_match (p r : List Char) (hp : p ≠ []) :
    ∀ a b : List Char, occursInB p (a ++ p.dropLast) = false →
      replaceAllAux p r (a ++ (p ++ b)) 0 =
        a ++ (r ++ replaceAllAux p r b 0) := by
  intro a
  induction a with
  | nil =>
    intro b _
    simpa using replaceAllAux_head_match p r hp b
  | cons c a' ih =>
    intro b ha
    simp only [List.cons_append, occursInB, Bool.or_eq_false_iff] at ha
    have hfalse : p.isPrefixOf (c :: (a' ++ (p ++ b))) = false := by
      cases hx : p.isPrefixOf (c :: (a' ++ (p ++ b))) with
      | false => rfl
      | true =>
        exfalso
        have hpre : p <+: c :: (a' ++ (p ++ b)) := by simpa using hx
        have hw : c :: (a' ++ p.dropLast) <+: c :: (a' ++ (p ++ b)) := by
          obtain ⟨t0, ht0⟩ := List.dropLast_prefix p
          refine List.cons_prefix_cons.mpr ⟨rfl, ⟨t0 ++ b, ?_⟩⟩
          calc (a' ++ p.dropLast) ++ (t0 ++ b)
              = a' ++ ((p.dropLast ++ t0) ++ b) := by simp
            _ = a' ++ (p ++ b) := by rw [ht0]
        have hplen : 1 ≤ p.length := by
          cases p with
          | nil => exact absurd rfl hp
          | cons _ _ => simp
        have hlen : p.length ≤ (c :: (a' ++ p.dropLast)).length := by
          simp only [List.length_cons, List.length_append,
            List.length_dropLast]
          omega
        have hfin : p <+: c :: (a' ++ p.dropLast) :=
          List.prefix_of_prefix_length_le hpre hw hlen
        have hfinB : p.isPrefixOf (c :: (a' ++ p.dropLast)) = true := by
          simpa using hfin
        exact Bool.false_ne_true (by rw [← ha.1]; exact hfinB)
    simp [replaceAllAux, hfalse, ih b ha.2]

/-- Claim C10 (implicit): the cleaning step of `fetch_response` removes every
occurrence of the bot's mention token from the inbound text, not only a
single leading one, and the stored user message and the history sent to
inference carry this fully stripped text.  Conjuncts 1-2: the user entry
pushed to the store and the history POSTed to inference both carry
`stripMention mention msg`.  Conjunct 3: an occurrence of the token sitting
after an arbitrary occurrence-free preamble `a` — leading or not — is
replaced.  Conjunct 4: when no other occurrence exists, the result is
exactly the text with that occurrence deleted.  Conjunct 5: a concrete text
with three non-leading occurrences has all three removed. -/
theorem mention_strip_removes_every_occurrence
    (mention msg : String) (store : Store) (tid : Nat) (model r : String)
    (data : ConversationSession) (p rep a b : List Char)
    (hfind : find_one store tid = some data)
    (hp : p ≠ [])
    (ha : occursInB p (a ++ p.dropLast) = false)
    (hb : occursInB p b = false) :
    (fetch_response mention (fun _ _ => Except.ok r) true store model msg
          tid).store =
        update_one_push (update_one_push store tid
          ⟨"user", stripMention mention msg⟩) tid ⟨"assistant", r⟩ ∧
    (fetch_response mention (fun _ _ => Except.ok r) true store model msg
          tid).events =
        [Event.appendUser tid ⟨"user", stripMention mention msg⟩,
          Event.inferCall model
            (data.messages ++ [⟨"user", stripMention mention msg⟩]),
          Event.appendAssistant tid ⟨"assistant", r⟩] ∧
    replaceAllAux p rep (a ++ (p ++ b)) 0 =
        a ++ (rep ++ replaceAllAux p rep b 0) ∧
    replaceAllAux p [] (a ++ (p ++ b)) 0 = a ++ b ∧
    stripMention "<@99>" "one <@99> two <@99> three <@99>" =
        "one  two  three " := by
  refine ⟨?_, ?_, replaceAllAux_middle_match p rep hp a b ha, ?_, by decide⟩
  · simp [fetch_response, hfind]
  · simp [fetch_response, hfind]
  · have h3 := replaceAllAux_middle_match p ([] : List Char) hp a b ha
    rw [replaceAllAux_no_occurrence p [] b hb] at h3
    simpa using h3

theorem mention_strip_removes_every_occurrence_witness :
    find_one [ConversationSession.mk 1 [systemMsg] "M1"] 1 =
        some (ConversationSession.mk 1 [systemMsg] "M1") ∧
    "<@9>".data ≠ [] ∧
    occursInB "<@9>".data ("pre ".data ++ "<@9>".data.dropLast) = false ∧
    occursInB "<@9>".data " post".data = false ∧
    ((fetch_response "<@9>" (fun _ _ => Except.ok "ok") true
          [ConversationSession.mk 1 [systemMsg] "M1"] "M1" "pre <@9> post"
          1).store =
        update_one_push (update_one_push
          [ConversationSession.mk 1 [systemMsg] "M1"] 1
          ⟨"user", stripMention "<@9>" "pre <@9> post"⟩) 1
          ⟨"assistant", "ok"⟩ ∧
      (fetch_response "<@9>" (fun _ _ => Except.ok "ok") true
          [ConversationSession.mk 1 [systemMsg] "M1"] "M1" "pre <@9> post"
          1).events =
        [Event.appendUser 1 ⟨"user", stripMention "<@9>" "pre <@9> post"⟩,
          Event.inferCall "M1"
            ((ConversationSession.mk 1 [systemMsg] "M1").messages ++
              [⟨"user", stripMention "<@9>" "pre <@9> post"⟩]),
          Event.appendAssistant 1 ⟨"assistant", "ok"⟩] ∧
      replaceAllAux "<@9>".data "X".data
          ("pre ".data ++ ("<@9>".data ++ " post".data)) 0 =
        "pre ".data ++ ("X".data ++
          replaceAllAux "<@9>".data "X".data " post".data 0) ∧
      replaceAllAux "<@9>".data []
          ("pre ".data ++ ("<@9>".data ++ " post".data)) 0 =
        "pre ".data ++ " post".data ∧
      stripMention "<@99>" "one <@99> two <@99> three <@99>" =
        "one  two  three ") :=
  ⟨rfl, by decide, by decide, by decide,
    mention_strip_removes_every_occurrence "<@9>" "pre <@9> post"
      [ConversationSession.mk 1 [systemMsg] "M1"] 1 "M1" "ok"
      (ConversationSession.mk 1 [systemMsg] "M1")
      "<@9>".data "X".data "pre ".data " post".data
      rfl (by decide) (by decide) (by decide)⟩
